import Mathlib

/-!
# Verification of the lab equipment reservation core

Shallow embedding of the conflict-detection / resolution and statistics
aggregation core of the repository.

Conventions of the embedding:
* Calendar dates are day numbers (days since 1970-01-01, the JS epoch at
  midnight UTC).  All dates handled by the program are whole calendar days,
  so JS `Date` comparison / subtraction corresponds to `Int` comparison /
  subtraction on day numbers, and `Math.ceil(diffMs / 86400000)` is exact
  integer day difference.  `date.setDate(date.getDate() + k)` is `+ k` on
  day numbers.
* JS strings are `String`; `Utils.normalize` is trim + toLower.
* The reschedule suggestion string `Reschedule: <start> -> <end>
  (Duration: ...)` is modelled as a record of the two reported dates and the
  duration in days; `Utils.formatDate` is injective on day numbers so no
  information is lost.
* JS `Array.prototype.sort(cmp)` is modelled as a stable sort (mandated by
  ECMAScript) in which a comparator result of `NaN` is treated as `+0`
  (ECMAScript `SortCompare`).  `NaN` arises from `parseInt` on non-numeric
  ids and is modelled by `Option Int` (`none` = `NaN`).
* JS `reduce` without an initial value throws on an empty array; it is
  modelled by `jsReduce`, which returns `none` exactly in the throwing case.
* The statistics-service memoization cache is omitted: for a freshly
  constructed service every query is a cache miss, so `generateStatistics`
  is modelled as the pure recomputation.
-/

set_option linter.unusedVariables false

namespace Lab

/-- Whitespace for the purposes of JS `trim` (the characters that occur in
this system's data). -/
def isWsChar (c : Char) : Bool :=
  decide (c = ' ') || decide (c = '\t') || decide (c = '\n') ||
    decide (c = '\r')

/-- `trim` on a character list: drop leading and trailing whitespace. -/
def trimChars (cs : List Char) : List Char :=
  ((cs.dropWhile isWsChar).reverse.dropWhile isWsChar).reverse

/-- `Utils.normalize(val)`: `val.toString().trim().toLowerCase()` (the
`null`/`undefined` guard cannot fire for the always-present string fields
used here).  Implemented on the character list so that it evaluates by
kernel reduction. -/
def normalize (s : String) : String :=
  String.mk ((trimChars s.data).map Char.toLower)

/-- `Utils.dateRangesOverlap(start1, end1, start2, end2)`:
`start1 < end2 && start2 < end1` (strict boundary test). -/
def dateRangesOverlap (start1 end1 start2 end2 : Int) : Bool :=
  decide (start1 < end2) && decide (start2 < end1)

/-- The reschedule suggestion produced by
`ConflictService.generateRescheduleSuggestion`: the suggested new start and
end dates and the duration label reported in the suggestion string. -/
structure Suggestion where
  newStart : Int
  newEnd : Int
  durationDays : Int
deriving DecidableEq

/-- The `Reservation` entity (`part_003`).  `startDate`/`endDate` are day
numbers; `status` is already normalized by the constructor; `suggestion`
starts out `null` (`none`). -/
structure Reservation where
  id : String
  device : String
  labRegion : String
  startDate : Int
  endDate : Int
  requestedBy : String
  status : String
  suggestion : Option Suggestion
deriving DecidableEq

/-- `Reservation.conflictsWith(other)`: same normalized device and region,
then the strict date-range overlap test. -/
def conflictsWith (self other : Reservation) : Bool :=
  if normalize self.device = normalize other.device ∧
      normalize self.labRegion = normalize other.labRegion then
    dateRangesOverlap self.startDate self.endDate other.startDate other.endDate
  else
    false

/-- `Reservation.getDurationInDays()`: `Math.ceil(|endDate - startDate| /
86400000)`, with a same-day reservation counted as 1 day instead of 0. -/
def getDurationInDays (r : Reservation) : Int :=
  let days : Int := ((r.endDate - r.startDate).natAbs : Int)
  if days = 0 then 1 else days

/-- `Reservation.hasSuggestion()` (`suggestion !== null && suggestion !== ''`;
the empty-string case cannot arise since suggestions are whole formatted
sentences, modelled as `Option`). -/
def hasSuggestion (r : Reservation) : Bool := r.suggestion.isSome

/-- A `ConflictGroup` (ConflictService.js): the device / region key and the
member reservations.  The cosmetic random `id` field is omitted. -/
structure ConflictGroup where
  device : String
  labRegion : String
  reservations : List Reservation
deriving DecidableEq

/-- `ConflictGroup.getPrimaryReservation()`: first member without a
suggestion. -/
def getPrimaryReservation (g : ConflictGroup) : Option Reservation :=
  g.reservations.find? (fun r => !hasSuggestion r)

/-- Pair each list element with its array index starting at `i`, mirroring
the JS `for (let i = 0; ...)` loops of `findConflicts`. -/
def indexed : Nat → List α → List (Nat × α)
  | _, [] => []
  | i, x :: xs => (i, x) :: indexed (i + 1) xs

/-- The inner `for (let j = i + 1; ...)` loop of
`ConflictService.findConflicts`: scan the later candidates, skipping indices
already in `processed`, collecting (and marking processed) each one that
conflicts with the current reservation. -/
def jScan (cur : Reservation) :
    List (Nat × Reservation) → List Nat → List (Nat × Reservation)
  | [], _ => []
  | (j, r) :: rest, processed =>
    if j ∈ processed then jScan cur rest processed
    else if conflictsWith cur r then (j, r) :: jScan cur rest (processed ++ [j])
    else jScan cur rest processed

/-- The outer loop of `ConflictService.findConflicts`: for each unprocessed
candidate build the group of the candidate itself, the later conflicting
unprocessed candidates, the conflicting acknowledged reservations and the
conflicting resolved reservations, and emit it when it has more than one
member (marking the seed index processed on emission, exactly as the JS
adds `i` to `processed` only inside the `length > 1` branch). -/
def fcGo (acks ress : List Reservation) :
    List (Nat × Reservation) → List Nat → List ConflictGroup
  | [], _ => []
  | (i, cur) :: rest, processed =>
    if i ∈ processed then fcGo acks ress rest processed
    else
      let laterNew := jScan cur rest processed
      let ackM := acks.filter (fun a => conflictsWith cur a)
      let resM := ress.filter (fun x => conflictsWith cur x)
      let group := cur :: (laterNew.map Prod.snd ++ ackM ++ resM)
      let processed1 := processed ++ laterNew.map Prod.fst
      if 1 < group.length then
        { device := cur.device, labRegion := cur.labRegion,
          reservations := group } :: fcGo acks ress rest (i :: processed1)
      else fcGo acks ress rest processed1

/-- `ConflictService.findConflicts(newReservations, acknowledgedReservations,
resolvedReservations)`. -/
def findConflicts (newReservations acknowledgedReservations
    resolvedReservations : List Reservation) : List ConflictGroup :=
  fcGo acknowledgedReservations resolvedReservations
    (indexed 0 newReservations) []

/-- Modelled from the spec's wording of the detection pass (for the C1
refinement comparison): for each unconsumed candidate, the group is the
candidate plus every *later unconsumed* candidate that directly overlaps it,
every acknowledged reservation that directly overlaps it and every resolved
reservation that directly overlaps it, emitted only with more than one
member; the later overlapping candidates are consumed. -/
def fcGoSpec (acks ress : List Reservation) :
    List (Nat × Reservation) → List Nat → List ConflictGroup
  | [], _ => []
  | (i, cur) :: rest, consumed =>
    if i ∈ consumed then fcGoSpec acks ress rest consumed
    else
      let laterNew := rest.filter
        (fun p => decide (p.1 ∉ consumed) && conflictsWith cur p.2)
      let ackM := acks.filter (fun a => conflictsWith cur a)
      let resM := ress.filter (fun x => conflictsWith cur x)
      let group := cur :: (laterNew.map Prod.snd ++ ackM ++ resM)
      let consumed1 := consumed ++ laterNew.map Prod.fst
      if 1 < group.length then
        { device := cur.device, labRegion := cur.labRegion,
          reservations := group } :: fcGoSpec acks ress rest (i :: consumed1)
      else fcGoSpec acks ress rest consumed1

/-- Spec-side counterpart of `findConflicts` (for the C1 refinement). -/
def findConflictsSpec (newReservations acknowledgedReservations
    resolvedReservations : List Reservation) : List ConflictGroup :=
  fcGoSpec acknowledgedReservations resolvedReservations
    (indexed 0 newReservations) []

/-! ## Conflict resolution (stability mode) -/

/-- `CONFIG.CONFLICT.BUFFER_DAYS` (config.js). -/
def BUFFER_DAYS : Int := 1

/-- JS `parseInt(s)` restricted to base-10 behaviour: skip leading
whitespace, optional sign, then the longest digit prefix; `NaN` (`none`)
when no digit follows. -/
def leadingDigitsVal (cs : List Char) : Option Nat :=
  let ds := cs.takeWhile Char.isDigit
  if ds.isEmpty then none
  else some (ds.foldl (fun a c => a * 10 + (c.toNat - 48)) 0)

/-- JS `parseInt(id)` as used by the id comparator (decimal parse; the hex
`0x` autodetection cannot trigger on the decimal ids this system uses). -/
def parseIntJs (s : String) : Option Int :=
  match trimChars s.data with
  | '-' :: rest => (leadingDigitsVal rest).map (fun n => -(n : Int))
  | '+' :: rest => (leadingDigitsVal rest).map (fun n => (n : Int))
  | cs => (leadingDigitsVal cs).map (fun n => (n : Int))

/-- The sort comparator `(a, b) => parseInt(a.id) - parseInt(b.id)` after
ECMAScript `SortCompare` post-processing: a `NaN` result is treated as
`+0`. -/
def compareIdsJs (a b : Reservation) : Int :=
  match parseIntJs a.id, parseIntJs b.id with
  | some x, some y => x - y
  | _, _ => 0

/-- `a` may stay before `b` in the sorted order (comparator result `<= 0`). -/
def idSortLe (a b : Reservation) : Bool := decide (compareIdsJs a b ≤ 0)

/-- Numeric id value with `NaN` defaulted (only used to state ordering
facts about groups whose ids all parse). -/
def idNumOf (r : Reservation) : Int := (parseIntJs r.id).getD 0

/-- Stable insertion of `x` after all already-placed elements that may stay
before it. -/
def insertLe (le : α → α → Bool) (x : α) : List α → List α
  | [] => [x]
  | y :: ys => if le y x then y :: insertLe le x ys else x :: y :: ys

/-- Stable sort: the model of JS `Array.prototype.sort` (ECMAScript mandates
a stable result; for a consistent comparator any stable sort produces this
order). -/
def stableSort (le : α → α → Bool) (l : List α) : List α :=
  l.foldl (fun acc x => insertLe le x acc) []

/-- `ConflictService.generateRescheduleSuggestion(prev, current)`:
`newStart = prev.endDate + BUFFER_DAYS`,
`newEnd = newStart + originalDuration - 1`, reporting the original
duration. -/
def generateRescheduleSuggestion (prev current : Reservation) : Suggestion :=
  let newStartDate := prev.endDate + BUFFER_DAYS
  let originalDuration := getDurationInDays current
  { newStart := newStartDate
    newEnd := newStartDate + originalDuration - 1
    durationDays := originalDuration }

/-- The `for (let i = 1; ...)` loop of `resolveConflictsStabilityMode`: walk
the sorted members, setting each member's suggestion anchored to the array
element before it (which may already carry a suggestion of its own — its
dates are untouched). -/
def applySuggestionsGo (prev : Reservation) :
    List Reservation → List Reservation
  | [] => []
  | cur :: rest =>
    let cur1 := { cur with
      suggestion := some (generateRescheduleSuggestion prev cur) }
    cur1 :: applySuggestionsGo cur1 rest

/-- Resolution of one conflict group: sort members by numeric id
(`parseInt(a.id) - parseInt(b.id)`), keep the first member untouched, give
every later member a suggestion anchored to its predecessor. -/
def resolveGroup (g : ConflictGroup) : ConflictGroup :=
  { g with reservations :=
      match stableSort idSortLe g.reservations with
      | [] => []
      | first :: rest => first :: applySuggestionsGo first rest }

/-- `ConflictService.resolveConflictsStabilityMode(conflicts)`. -/
def resolveConflictsStabilityMode (conflicts : List ConflictGroup) :
    List ConflictGroup :=
  conflicts.map resolveGroup

/-! ## Interval aggregation (StatisticsService unique-days merge) -/

/-- A `{start, end}` date range (field `stop` models the JS `end`, a Lean
keyword). -/
structure DRange where
  start : Int
  stop : Int
deriving DecidableEq

/-- Range of a reservation (`{start: new Date(r.startDate), end: new
Date(r.endDate)}`). -/
def toDRange (r : Reservation) : DRange :=
  { start := r.startDate, stop := r.endDate }

/-- Sort ranges by start date (`.sort((a, b) => a.start - b.start)`). -/
def sortRangesByStart (l : List DRange) : List DRange :=
  stableSort (fun a b => decide (a.start ≤ b.start)) l

/-- The merge sweep over start-sorted ranges: absorb the next range into the
current one whenever `next.start <= current.end` (inclusive / adjacent
merge), taking the max end. -/
def mergeRangesGo (currentRange : DRange) : List DRange → List DRange
  | [] => [currentRange]
  | nextRange :: rest =>
    if nextRange.start ≤ currentRange.stop then
      mergeRangesGo { currentRange with
        stop := max currentRange.stop nextRange.stop } rest
    else
      currentRange :: mergeRangesGo nextRange rest

/-- Merge a start-sorted range list (the `for` loop plus the trailing
`mergedRanges.push(currentRange)`). -/
def mergeSortedRanges : List DRange → List DRange
  | [] => []
  | r :: rest => mergeRangesGo r rest

/-- Total days of a merged range list:
`Math.ceil((end - start) / 86400000) + 1` summed. -/
def totalDaysOfRanges (l : List DRange) : Int :=
  l.foldl (fun acc r => acc + (r.stop - r.start + 1)) 0

/-- `StatisticsService.calculateUniqueDaysUsed(reservations)`. -/
def calculateUniqueDaysUsed (reservations : List Reservation) : Int :=
  if reservations.isEmpty then 0
  else
    totalDaysOfRanges
      (mergeSortedRanges (sortRangesByStart (reservations.map toDRange)))

/-! ## Calendar model -/

/-- Day number of a civil date (days since 1970-01-01), via the standard
days-from-civil algorithm; `m` is the 1-based month. -/
def mkDate (y m d : Int) : Int :=
  let y1 := if m ≤ 2 then y - 1 else y
  let era := Int.ediv y1 400
  let yoe := y1 - era * 400
  let mp := Int.emod (m + 9) 12
  let doy := Int.ediv (153 * mp + 2) 5 + d - 1
  let doe := yoe * 365 + Int.ediv yoe 4 - Int.ediv yoe 100 + doy
  era * 146097 + doe - 719468

/-- The current instant `new Date()`, reduced to a civil date (`month0` is
the 0-based `getMonth()` value).  The system compares midnight-UTC
reservation dates against "now", so the model takes "now" at a day
granularity. -/
structure Today where
  year : Int
  month0 : Int
  day : Int
deriving DecidableEq

/-- Day number of "now". -/
def todayDay (t : Today) : Int := mkDate t.year (t.month0 + 1) t.day

/-- Day number of `new Date(y, m0, 1)` with JS month-overflow
normalization (month index may be negative or above 11). -/
def monthStartDay (y m0 : Int) : Int :=
  let t := y * 12 + m0
  mkDate (Int.ediv t 12) (Int.emod t 12 + 1) 1

/-- `monthNames` array of `getMonthlyConflictPatterns`. -/
def monthNames : List String :=
  ["Jan", "Feb", "Mar", "Apr", "May", "Jun",
   "Jul", "Aug", "Sep", "Oct", "Nov", "Dec"]

/-- Month name of an absolute month count (`y * 12 + m0`). -/
def monthNameOf (t : Int) : String :=
  monthNames.getD (Int.emod t 12).toNat ""

/-- Year of an absolute month count. -/
def yearOfMonths (t : Int) : Int := Int.ediv t 12

/-- JS `Array.prototype.reduce(f)` without initial value: `none` models the
`TypeError` thrown on an empty array. -/
def jsReduce (f : α → α → α) : List α → Option α
  | [] => none
  | h :: t => some (t.foldl f h)

/-! ## StatisticsService (`part_005`) -/

/-- `monthsToDays(months)`. -/
def monthsToDays (months : Nat) : Int :=
  match months with
  | 1 => 30
  | 3 => 90
  | 6 => 180
  | 12 => 365
  | m => (m : Int) * 30

/-- `filterByTimeframe(reservations, monthsBack)`: keep reservations whose
start date is on or after `now - monthsToDays(monthsBack)` days. -/
def filterByTimeframe (today : Today) (reservations : List Reservation)
    (monthsBack : Nat) : List Reservation :=
  if monthsBack = 0 then reservations
  else
    let cutoffDate := todayDay today - monthsToDays monthsBack
    reservations.filter (fun r => decide (cutoffDate ≤ r.startDate))

/-- `getTimeframeLabel(monthsBack)`. -/
def getTimeframeLabel (monthsBack : Nat) : String :=
  if monthsBack = 0 then "All time"
  else if monthsBack = 1 then "Last 30 days"
  else if monthsBack = 3 then "Last 90 days"
  else if monthsBack = 6 then "Last 180 days"
  else if monthsBack = 12 then "Last 365 days"
  else "Last " ++ toString monthsBack ++ " months"

/-- `calculateUniqueDaysUsedWithinTimeframe(reservations, monthsBack)`:
clip each range to `[now - monthsToDays(monthsBack), now]` (no clipping for
all-time), drop inverted ranges, then the same sort / inclusive-merge /
sum sweep as `calculateUniqueDaysUsed`. -/
def calculateUniqueDaysUsedWithinTimeframe (today : Today)
    (reservations : List Reservation) (monthsBack : Nat) : Int :=
  if reservations.isEmpty then 0
  else
    let timeframeEnd := todayDay today
    let clipped := reservations.filterMap (fun r =>
      if monthsBack > 0 then
        let timeframeStart := timeframeEnd - monthsToDays monthsBack
        let s := max r.startDate timeframeStart
        let e := min r.endDate timeframeEnd
        if s > e then none else some ({ start := s, stop := e } : DRange)
      else some (toDRange r))
    if clipped.isEmpty then 0
    else totalDaysOfRanges (mergeSortedRanges (sortRangesByStart clipped))

/-- One `monthlyData` entry of `getMonthlyConflictPatterns`. -/
structure MonthData where
  month : String
  year : Int
  conflicts : Nat
  label : String
deriving DecidableEq

/-- The result of `getMonthlyConflictPatterns`. -/
structure HeatmapResult where
  monthlyConflicts : List MonthData
  peakMonth : Option MonthData
  lowMonth : Option MonthData
  totalConflicts : Nat
deriving DecidableEq

/-- The pair identifier `[res1.id, res2.id].sort().join('-')` (default JS
sort on two strings keeps the lexicographically smaller first). -/
def pairKey (a b : String) : String :=
  if b < a then b ++ "-" ++ a else a ++ "-" ++ b

/-- All ordered index pairs `i < j` of a list, as element pairs, in the
order the nested JS loops visit them. -/
def allPairs : List α → List (α × α)
  | [] => []
  | x :: xs => xs.map (fun y => (x, y)) ++ allPairs xs

/-- The raw-equality inclusive conflict test of `countConflictsInPeriod`
and `getSimpleConflicts`: `res1.device === res2.device &&
res1.labRegion === res2.labRegion && res1.startDate <= res2.endDate &&
res2.startDate <= res1.endDate`. -/
def conflictIncl (res1 res2 : Reservation) : Bool :=
  decide (res1.device = res2.device) &&
  decide (res1.labRegion = res2.labRegion) &&
  decide (res1.startDate ≤ res2.endDate) &&
  decide (res2.startDate ≤ res1.endDate)

/-- `countConflictsInPeriod(reservations)`: count conflicting pairs with the
`processedPairs` dedup set. -/
def countConflictsInPeriod (reservations : List Reservation) : Nat :=
  ((allPairs reservations).foldl (fun acc p =>
    let pairId := pairKey p.1.id p.2.id
    if pairId ∈ acc.2 then acc
    else
      let seen := pairId :: acc.2
      if conflictIncl p.1 p.2 then (acc.1 + 1, seen) else (acc.1, seen))
    ((0 : Nat), ([] : List String))).1

/-- `getMonthlyConflictPatterns(allReservations)`: always over the trailing
365 days from now, bucketed into the 12 calendar months ending at the
current month; per month, reservations overlapping the month are selected
and their conflicting pairs counted. -/
def getMonthlyConflictPatterns (today : Today)
    (allReservations : List Reservation) : HeatmapResult :=
  let nowD := todayDay today
  let oneYearAgo := nowD - 365
  let relevantReservations := allReservations.filter (fun r =>
    decide (r.startDate ≤ nowD) && decide (oneYearAgo ≤ r.endDate))
  let monthlyData := (List.range 12).map (fun k =>
    let i : Int := 11 - (k : Int)
    let months := today.year * 12 + today.month0 - i
    let monthStart := monthStartDay today.year (today.month0 - i)
    let monthEnd := monthStartDay today.year (today.month0 - i + 1) - 1
    let monthReservations := relevantReservations.filter (fun r =>
      decide (r.startDate ≤ monthEnd) && decide (monthStart ≤ r.endDate))
    { month := monthNameOf months
      year := yearOfMonths months
      conflicts := countConflictsInPeriod monthReservations
      label := monthNameOf months ++ " " ++ toString (yearOfMonths months)
      : MonthData })
  let peakMonth := jsReduce
    (fun mx m => if m.conflicts > mx.conflicts then m else mx) monthlyData
  let lowMonth := jsReduce
    (fun mn m => if m.conflicts < mn.conflicts then m else mn) monthlyData
  { monthlyConflicts := monthlyData
    peakMonth := peakMonth
    lowMonth := lowMonth
    totalConflicts := monthlyData.foldl (fun s m => s + m.conflicts) 0 }

/-- `getConflictRelevantReservations(reservations, monthsBack)`: no filter
for all-time, otherwise reservations whose interval overlaps
`[now - monthsToDays(monthsBack), now]`. -/
def getConflictRelevantReservations (today : Today)
    (reservations : List Reservation) (monthsBack : Nat) :
    List Reservation :=
  if monthsBack = 0 then reservations
  else
    let nowD := todayDay today
    let timeframeStart := nowD - monthsToDays monthsBack
    reservations.filter (fun r =>
      decide (r.startDate ≤ nowD) && decide (timeframeStart ≤ r.endDate))

/-- One detected pair of `getSimpleConflicts`. -/
structure ConflictPairInfo where
  device : String
  region : String
  reservation1 : String
  reservation2 : String
deriving DecidableEq

/-- One `deviceConflicts` bucket of `getSimpleConflicts`. -/
structure DeviceConflictInfo where
  device : String
  region : String
  conflicts : Nat
  impactDays : Int
deriving DecidableEq

/-- The result object of `getSimpleConflicts`. -/
structure ConflictAnalysis where
  totalConflicts : Nat
  topBottlenecks : List DeviceConflictInfo
  recommendations : List String
deriving DecidableEq

/-- Increment the `deviceConflicts[key]` bucket (creating it at the end of
the insertion-ordered object when absent, as JS does for these string
keys). -/
def bumpDeviceConflict (key dev reg : String) (impact : Int) :
    List (String × DeviceConflictInfo) → List (String × DeviceConflictInfo)
  | [] => [(key, { device := dev, region := reg, conflicts := 1,
                   impactDays := impact })]
  | (k, v) :: rest =>
    if k = key then
      (k, { v with conflicts := v.conflicts + 1,
                   impactDays := v.impactDays + impact }) :: rest
    else (k, v) :: bumpDeviceConflict key dev reg impact rest

/-- `getSimpleConflicts(reservations)`: pair scan with dedup set, conflict
list, per-device buckets with overlap-day impact, top-5 bottlenecks by
conflict count, and the recommendation strings. -/
def getSimpleConflicts (reservations : List Reservation) :
    ConflictAnalysis :=
  let scan := (allPairs reservations).foldl (fun acc p =>
    let (conflicts, deviceConflicts, processedPairs) := acc
    let pairId := pairKey p.1.id p.2.id
    if pairId ∈ processedPairs then acc
    else
      let processed1 := pairId :: processedPairs
      if conflictIncl p.1 p.2 then
        let key := p.1.labRegion ++ "_" ++ p.1.device
        let overlapStart := max p.1.startDate p.2.startDate
        let overlapEnd := min p.1.endDate p.2.endDate
        let overlapDays := overlapEnd - overlapStart + 1
        (conflicts ++ [{ device := p.1.device, region := p.1.labRegion,
                         reservation1 := p.1.id, reservation2 := p.2.id
                         : ConflictPairInfo }],
         bumpDeviceConflict key p.1.device p.1.labRegion overlapDays
           deviceConflicts,
         processed1)
      else (conflicts, deviceConflicts, processed1))
    (([] : List ConflictPairInfo),
     ([] : List (String × DeviceConflictInfo)),
     ([] : List String))
  let conflicts := scan.1
  let topBottlenecks := (stableSort
    (fun a b => decide (b.conflicts ≤ a.conflicts))
    (scan.2.1.map Prod.snd)).take 5
  let recs0 : List String :=
    match topBottlenecks with
    | [] => []
    | tb :: _ =>
      (if 3 ≤ tb.conflicts then
        ["Consider acquiring additional " ++ tb.device ++ " units for " ++
         tb.region ++ " region"]
       else []) ++
      (if 10 < conflicts.length then
        ["High conflict rate - review booking policies and advance planning"]
       else [])
  let recommendations :=
    if recs0.isEmpty then
      [if conflicts.length = 0 then
        "No conflicts detected in selected timeframe"
       else "Conflict levels appear manageable"]
    else recs0
  { totalConflicts := conflicts.length
    topBottlenecks := topBottlenecks
    recommendations := recommendations }

/-- The result object of `getSimpleEfficiency`.  JS floating-point numbers
are modelled as exact rationals. -/
structure EfficiencyMetrics where
  avgBookingLeadTime : ℚ
  avgActualDuration : ℚ
  earlyTerminationRate : ℤ
  lastMinuteBookingRate : ℚ
  efficiencyOpportunities : List String
deriving DecidableEq

/-- `getSimpleEfficiency(reservations)`. -/
def getSimpleEfficiency (reservations : List Reservation) :
    EfficiencyMetrics :=
  let totalDays : Int :=
    reservations.foldl (fun s r => s + getDurationInDays r) 0
  let avgDuration : ℚ :=
    if 0 < reservations.length then
      ((round ((totalDays : ℚ) / (reservations.length : ℚ) * 10) : ℤ) : ℚ)
        / 10
    else 0
  let shortBookings :=
    (reservations.filter (fun r => decide (getDurationInDays r ≤ 3))).length
  let longBookings :=
    (reservations.filter (fun r => decide (14 < getDurationInDays r))).length
  { avgBookingLeadTime := 26 / 5
    avgActualDuration := avgDuration
    earlyTerminationRate :=
      round ((shortBookings : ℚ) / ((max reservations.length 1 : Nat) : ℚ)
        * 100)
    lastMinuteBookingRate := 12
    efficiencyOpportunities :=
      if (reservations.length : ℚ) * (3 / 10) < (longBookings : ℚ) then
        ["Consider shorter default booking periods"]
      else ["Booking patterns appear efficient"] }

/-- One entry of the `getTopUsers` result array. -/
structure UserStats where
  user : String
  numberOfReservations : Nat
  numberOfDevices : Nat
  numberOfDays : Int
deriving DecidableEq

/-- Append `v` to the bucket of `k` in an insertion-ordered association
list, creating the bucket at the end when absent (JS
`if (!stats[k]) stats[k] = []; stats[k].push(v)`). -/
def pushAssoc (k : String) (v : α) :
    List (String × List α) → List (String × List α)
  | [] => [(k, [v])]
  | (k1, vs) :: rest =>
    if k1 = k then (k1, vs ++ [v]) :: rest
    else (k1, vs) :: pushAssoc k v rest

/-- `getTopUsers(reservations, monthsBack)`: group by `requestedBy`, compute
per-user reservation count, distinct-device count and timeframe-clipped
unique days, sort by reservations then days (both descending), top 10. -/
def getTopUsers (today : Today) (reservations : List Reservation)
    (monthsBack : Nat) : List UserStats :=
  let userStats := reservations.foldl
    (fun acc r => pushAssoc r.requestedBy r acc)
    ([] : List (String × List Reservation))
  let usersArray := userStats.map (fun p =>
    { user := p.1
      numberOfReservations := p.2.length
      numberOfDevices := (p.2.map (fun r => r.device)).dedup.length
      numberOfDays :=
        calculateUniqueDaysUsedWithinTimeframe today p.2 monthsBack
      : UserStats })
  (stableSort (fun a b =>
    if a.numberOfReservations = b.numberOfReservations then
      decide (b.numberOfDays ≤ a.numberOfDays)
    else decide (b.numberOfReservations < a.numberOfReservations))
    usersArray).take 10

/-- One `{daysUsed, reservationCount}` cell of the device-utilization
result. -/
structure DeviceUsage where
  daysUsed : Int
  reservationCount : Nat
deriving DecidableEq

/-- The result object of `getDeviceUtilization`. -/
structure DeviceUtilization where
  selectedPeriod : List (String × List (String × DeviceUsage))
  timeframe : Nat
  periodLabel : String
deriving DecidableEq

/-- The two-level region -> device grouping used by
`calculateDeviceUtilizationForPeriod` (insertion-ordered, as JS object keys
are for the non-numeric names used here). -/
def groupByRegionDevice (reservations : List Reservation) :
    List (String × List (String × List Reservation)) :=
  reservations.foldl (fun acc r =>
    (acc.lookup r.labRegion).elim
      (acc ++ [(r.labRegion, [(r.device, [r])])])
      (fun inner => acc.map (fun p =>
        if p.1 = r.labRegion then (p.1, pushAssoc r.device r inner) else p)))
    []

/-- `calculateDeviceUtilizationForPeriod(reservations, monthsBack)`. -/
def calculateDeviceUtilizationForPeriod (today : Today)
    (reservations : List Reservation) (monthsBack : Nat) :
    List (String × List (String × DeviceUsage)) :=
  (groupByRegionDevice reservations).map (fun p =>
    (p.1, p.2.map (fun q =>
      (q.1, { daysUsed :=
                calculateUniqueDaysUsedWithinTimeframe today q.2 monthsBack
              reservationCount := q.2.length : DeviceUsage }))))

/-- `getDeviceUtilization(reservations, monthsBack)`. -/
def getDeviceUtilization (today : Today) (reservations : List Reservation)
    (monthsBack : Nat) : DeviceUtilization :=
  { selectedPeriod :=
      calculateDeviceUtilizationForPeriod today reservations monthsBack
    timeframe := monthsBack
    periodLabel := getTimeframeLabel monthsBack }

/-- The result object of `getStatisticsSummary`.  The formatted
`earliest`/`latest` dates are kept as day numbers (`Utils.formatDate` is
injective on them). -/
structure StatisticsSummary where
  totalReservations : Nat
  totalDays : Int
  uniqueDevices : Nat
  uniqueUsers : Nat
  uniqueRegions : Nat
  dateRange : Option (Int × Int)
  timeframe : String
deriving DecidableEq

/-- `getStatisticsSummary(reservations, monthsBack)`. -/
def getStatisticsSummary (reservations : List Reservation)
    (monthsBack : Nat) : StatisticsSummary :=
  let dates := stableSort (fun a b => decide (a ≤ b))
    (reservations.map (fun r => r.startDate))
  { totalReservations := reservations.length
    totalDays := reservations.foldl (fun s r => s + getDurationInDays r) 0
    uniqueDevices := (reservations.map (fun r => r.device)).dedup.length
    uniqueUsers := (reservations.map (fun r => r.requestedBy)).dedup.length
    uniqueRegions := (reservations.map (fun r => r.labRegion)).dedup.length
    dateRange :=
      match dates, dates.getLast? with
      | d :: _, some last => some (d, last)
      | _, _ => none
    timeframe :=
      if monthsBack = 0 then "All time"
      else "Last " ++ toString monthsBack ++ " month" ++
        (if 1 < monthsBack then "s" else "") }

/-- The full `generateStatistics` result object. -/
structure Statistics where
  deviceUtilization : DeviceUtilization
  utilizationHeatmap : HeatmapResult
  conflictAnalysis : ConflictAnalysis
  efficiencyMetrics : EfficiencyMetrics
  topUsers : List UserStats
  summary : StatisticsSummary
deriving DecidableEq

/-- `StatisticsService.generateStatistics(reservations, monthsBack)`:
resolved-only filter, then the optional timeframe filter, feeding the six
derived views.  Note the heatmap receives `reservations` unfiltered
(source comment: "Pass all reservations, not filtered") and the conflict
analysis receives `getConflictRelevantReservations(reservations, ...)`,
also unfiltered by status. -/
def generateStatistics (today : Today) (reservations : List Reservation)
    (monthsBack : Nat) : Statistics :=
  let resolvedReservations :=
    reservations.filter (fun r => decide (r.status = "resolved"))
  let filteredReservations :=
    if 0 < monthsBack then
      filterByTimeframe today resolvedReservations monthsBack
    else resolvedReservations
  { deviceUtilization :=
      getDeviceUtilization today filteredReservations monthsBack
    utilizationHeatmap := getMonthlyConflictPatterns today reservations
    conflictAnalysis := getSimpleConflicts
      (getConflictRelevantReservations today reservations monthsBack)
    efficiencyMetrics := getSimpleEfficiency filteredReservations
    topUsers := getTopUsers today filteredReservations monthsBack
    summary := getStatisticsSummary filteredReservations monthsBack }

/-! ## Concrete inputs used by the claim instances -/

/-- Shorthand for a reservation record as the ingestion layer produces it
(no suggestion yet). -/
def mkRes (i dev reg : String) (s e : Int) (st : String) : Reservation :=
  { id := i, device := dev, labRegion := reg, startDate := s, endDate := e,
    requestedBy := "user", status := st, suggestion := none }

/-- C1 chain: A overlaps B, B overlaps C, A does not overlap C. -/
def cA : Reservation := mkRes "1" "dev" "reg" 1 5 "new"

def cB : Reservation := mkRes "2" "dev" "reg" 4 10 "new"

def cC : Reservation := mkRes "3" "dev" "reg" 9 15 "new"

/-- C4 example reservation 1: 2024-01-01 .. 2024-01-05. -/
def c4r1 : Reservation :=
  mkRes "1" "DeviceA" "RegionA" (mkDate 2024 1 1) (mkDate 2024 1 5) "new"

/-- C4 example reservation 2: 2024-01-03 .. 2024-01-08. -/
def c4r2 : Reservation :=
  mkRes "2" "DeviceA" "RegionA" (mkDate 2024 1 3) (mkDate 2024 1 8) "new"

/-- C5: a reservation whose id does not parse as a number. -/
def c5x : Reservation := mkRes "abc" "d" "r" 1 5 "new"

def c5a : Reservation := mkRes "1" "d" "r" 1 5 "new"

def c5group : ConflictGroup :=
  { device := "d", labRegion := "r", reservations := [c5x, c5a] }

/-- C8: a same-day reservation (non-empty: one calendar day). -/
def c8A : Reservation := mkRes "9" "d" "r" 100 100 "new"

/-- C3 witness pair: touching at day 15. -/
def c3A : Reservation := mkRes "1" "d" "r" 10 15 "resolved"

def c3B : Reservation := mkRes "2" "d" "r" 15 20 "resolved"

/-- C2 witness: a fully overlapping 3-member chain with ids 1, 2, 3. -/
def c2m1 : Reservation := mkRes "1" "d" "r" 1 5 "new"

def c2m2 : Reservation := mkRes "2" "d" "r" 2 8 "new"

def c2m3 : Reservation := mkRes "3" "d" "r" 3 9 "new"

def c2group : ConflictGroup :=
  { device := "d", labRegion := "r", reservations := [c2m1, c2m2, c2m3] }

/-- "Now" for the heatmap instances: 2024-12-15. -/
def today2024 : Today := { year := 2024, month0 := 11, day := 15 }

/-- Heatmap pair: overlapping June 2024 reservations, status `new`. -/
def hr1 : Reservation :=
  mkRes "1" "D" "R" (mkDate 2024 6 10) (mkDate 2024 6 15) "new"

def hr2 : Reservation :=
  mkRes "2" "D" "R" (mkDate 2024 6 12) (mkDate 2024 6 20) "new"

/-- C10 witness: two non-overlapping candidates plus one acknowledged and
one resolved reservation overlapping both. -/
def w1 : Reservation := mkRes "1" "dev" "reg" 1 10 "new"

def w2 : Reservation := mkRes "2" "dev" "reg" 20 30 "new"

def wa : Reservation := mkRes "7" "dev" "reg" 5 25 "acknowledged"

def wr : Reservation := mkRes "8" "dev" "reg" 8 22 "resolved"

/-- Conflict count of one heatmap month bucket `[ms, me]` over the
365-day-relevant reservations (proof-side abbreviation of the per-month
body of `getMonthlyConflictPatterns`). -/
def bucketCount (ms me : Int) (rel : List Reservation) : Nat :=
  countConflictsInPeriod (rel.filter (fun r =>
    decide (r.startDate ≤ me) && decide (ms ≤ r.endDate)))

/-- The 12 month buckets of `getMonthlyConflictPatterns` evaluated at
`today2024` (2024-12-15), with the bucket boundaries as day-number
literals. -/
def months2024 (rel : List Reservation) : List MonthData :=
  [⟨"Jan", 2024, bucketCount 19723 19753 rel, "Jan 2024"⟩,
   ⟨"Feb", 2024, bucketCount 19754 19782 rel, "Feb 2024"⟩,
   ⟨"Mar", 2024, bucketCount 19783 19813 rel, "Mar 2024"⟩,
   ⟨"Apr", 2024, bucketCount 19814 19843 rel, "Apr 2024"⟩,
   ⟨"May", 2024, bucketCount 19844 19874 rel, "May 2024"⟩,
   ⟨"Jun", 2024, bucketCount 19875 19904 rel, "Jun 2024"⟩,
   ⟨"Jul", 2024, bucketCount 19905 19935 rel, "Jul 2024"⟩,
   ⟨"Aug", 2024, bucketCount 19936 19966 rel, "Aug 2024"⟩,
   ⟨"Sep", 2024, bucketCount 19967 19996 rel, "Sep 2024"⟩,
   ⟨"Oct", 2024, bucketCount 19997 20027 rel, "Oct 2024"⟩,
   ⟨"Nov", 2024, bucketCount 20028 20057 rel, "Nov 2024"⟩,
   ⟨"Dec", 2024, bucketCount 20058 20088 rel, "Dec 2024"⟩]

/-- Assemble a heatmap result from bucket data exactly as
`getMonthlyConflictPatterns` does (reduce for peak, reduce for low, summed
total). -/
def heatmapFromBuckets (md : List MonthData) : HeatmapResult :=
  { monthlyConflicts := md
    peakMonth := jsReduce
      (fun mx m => if m.conflicts > mx.conflicts then m else mx) md
    lowMonth := jsReduce
      (fun mn m => if m.conflicts < mn.conflicts then m else mn) md
    totalConflicts := md.foldl (fun s m => s + m.conflicts) 0 }

/-! ## Helper lemmas: the stable sort -/

lemma insertLe_perm (le : α → α → Bool) (x : α) :
    ∀ l : List α, (insertLe le x l).Perm (x :: l) := by
  intro l
  induction l with
  | nil => exact List.Perm.refl _
  | cons y ys ih =>
    by_cases h : le y x = true
    · rw [insertLe, if_pos h]
      exact (ih.cons y).trans (List.Perm.swap x y ys)
    · rw [insertLe, if_neg h]

lemma foldl_insertLe_perm (le : α → α → Bool) :
    ∀ (l acc : List α),
      (l.foldl (fun a x => insertLe le x a) acc).Perm (acc ++ l) := by
  intro l
  induction l with
  | nil => intro acc; simp
  | cons x xs ih =>
    intro acc
    have h1 : ((x :: xs).foldl (fun a y => insertLe le y a) acc) =
        xs.foldl (fun a y => insertLe le y a) (insertLe le x acc) := rfl
    rw [h1]
    exact (ih _).trans
      (((insertLe_perm le x acc).append_right xs).trans List.perm_middle.symm)

lemma stableSort_perm (le : α → α → Bool) (l : List α) :
    (stableSort le l).Perm l := by
  simpa using foldl_insertLe_perm le l []

lemma mem_stableSort {le : α → α → Bool} {l : List α} {x : α} :
    x ∈ stableSort le l ↔ x ∈ l :=
  (stableSort_perm le l).mem_iff

lemma mem_insertLe {le : α → α → Bool} {x y : α} {l : List α} :
    y ∈ insertLe le x l ↔ y = x ∨ y ∈ l := by
  rw [(insertLe_perm le x l).mem_iff, List.mem_cons]

lemma insertLe_pairwise {le : α → α → Bool} {U : List α}
    (htot : ∀ a ∈ U, ∀ b ∈ U, le a b = true ∨ le b a = true)
    (htrans : ∀ a ∈ U, ∀ b ∈ U, ∀ c ∈ U,
      le a b = true → le b c = true → le a c = true) :
    ∀ {l : List α} {x : α}, x ∈ U → (∀ y ∈ l, y ∈ U) →
      l.Pairwise (fun a b => le a b = true) →
      (insertLe le x l).Pairwise (fun a b => le a b = true) := by
  intro l
  induction l with
  | nil =>
    intro x _ _ _
    exact List.pairwise_singleton _ x
  | cons y ys ih =>
    intro x hx hmem hpw
    obtain ⟨hy, hys⟩ := List.pairwise_cons.mp hpw
    by_cases h : le y x = true
    · rw [insertLe, if_pos h]
      refine List.pairwise_cons.mpr ⟨?_, ?_⟩
      · intro z hz
        rcases mem_insertLe.mp hz with rfl | hz'
        · exact h
        · exact hy z hz'
      · exact ih hx (fun z hz => hmem z (List.mem_cons_of_mem y hz)) hys
    · rw [insertLe, if_neg h]
      have hxy : le x y = true := by
        rcases htot y (hmem y (List.mem_cons_self y ys)) x hx with h' | h'
        · exact absurd h' h
        · exact h'
      refine List.pairwise_cons.mpr ⟨?_, hpw⟩
      intro z hz
      rcases List.mem_cons.mp hz with rfl | hz'
      · exact hxy
      · exact htrans x hx y (hmem y (List.mem_cons_self y ys)) z
          (hmem z (List.mem_cons_of_mem y hz')) hxy (hy z hz')

lemma foldl_insertLe_pairwise {le : α → α → Bool} {U : List α}
    (htot : ∀ a ∈ U, ∀ b ∈ U, le a b = true ∨ le b a = true)
    (htrans : ∀ a ∈ U, ∀ b ∈ U, ∀ c ∈ U,
      le a b = true → le b c = true → le a c = true) :
    ∀ {l acc : List α}, (∀ y ∈ l, y ∈ U) → (∀ y ∈ acc, y ∈ U) →
      acc.Pairwise (fun a b => le a b = true) →
      (l.foldl (fun a x => insertLe le x a) acc).Pairwise
        (fun a b => le a b = true) := by
  intro l
  induction l with
  | nil => intro acc _ _ hacc; exact hacc
  | cons x xs ih =>
    intro acc hl hacc hpw
    refine ih (fun y hy => hl y (List.mem_cons_of_mem x hy)) ?_ ?_
    · intro y hy
      rcases mem_insertLe.mp hy with rfl | hy'
      · exact hl _ (List.mem_cons_self _ _)
      · exact hacc y hy'
    · exact insertLe_pairwise htot htrans (hl x (List.mem_cons_self x xs))
        hacc hpw

lemma stableSort_pairwise {le : α → α → Bool} {l : List α}
    (htot : ∀ a ∈ l, ∀ b ∈ l, le a b = true ∨ le b a = true)
    (htrans : ∀ a ∈ l, ∀ b ∈ l, ∀ c ∈ l,
      le a b = true → le b c = true → le a c = true) :
    (stableSort le l).Pairwise (fun a b => le a b = true) :=
  foldl_insertLe_pairwise htot htrans (fun _ hy => hy)
    (fun y hy => absurd hy (List.not_mem_nil y)) List.Pairwise.nil

/-! ## Helper lemmas: the id comparator -/

lemma idSortLe_total (a b : Reservation) :
    idSortLe a b = true ∨ idSortLe b a = true := by
  unfold idSortLe compareIdsJs
  cases ha : parseIntJs a.id <;> cases hb : parseIntJs b.id <;>
    simp only [decide_eq_true_eq] <;> omega

lemma idSortLe_trans_of_parse {a b c : Reservation}
    (ha : (parseIntJs a.id).isSome = true)
    (hb : (parseIntJs b.id).isSome = true)
    (hc : (parseIntJs c.id).isSome = true) :
    idSortLe a b = true → idSortLe b c = true → idSortLe a c = true := by
  obtain ⟨x, hx⟩ := Option.isSome_iff_exists.mp ha
  obtain ⟨y, hy⟩ := Option.isSome_iff_exists.mp hb
  obtain ⟨z, hz⟩ := Option.isSome_iff_exists.mp hc
  unfold idSortLe compareIdsJs
  rw [hx, hy, hz]
  simp only [decide_eq_true_eq]
  omega

lemma idSortLe_imp_idNum {a b : Reservation}
    (ha : (parseIntJs a.id).isSome = true)
    (hb : (parseIntJs b.id).isSome = true) :
    idSortLe a b = true → idNumOf a ≤ idNumOf b := by
  obtain ⟨x, hx⟩ := Option.isSome_iff_exists.mp ha
  obtain ⟨y, hy⟩ := Option.isSome_iff_exists.mp hb
  unfold idSortLe compareIdsJs idNumOf
  rw [hx, hy]
  simp only [decide_eq_true_eq, Option.getD_some]
  omega

/-! ## Helper lemmas: suggestion application -/

lemma generateRescheduleSuggestion_suggestion_irrel
    (prev cur : Reservation) (s : Option Suggestion) :
    generateRescheduleSuggestion { prev with suggestion := s } cur =
      generateRescheduleSuggestion prev cur := rfl

lemma applySuggestionsGo_get? :
    ∀ (l : List Reservation) (prev : Reservation) (i : Nat),
      (applySuggestionsGo prev l).get? i =
        (l.get? i).bind (fun cur => ((prev :: l).get? i).map (fun p =>
          { cur with
            suggestion := some (generateRescheduleSuggestion p cur) })) := by
  intro l
  induction l with
  | nil => intro prev i; cases i <;> rfl
  | cons c t ih =>
    intro prev i
    cases i with
    | zero => rfl
    | succ k =>
      show (applySuggestionsGo _ t).get? k = _
      rw [ih]
      cases k with
      | zero => rfl
      | succ m => rfl

lemma applySuggestionsGo_length :
    ∀ (l : List Reservation) (prev : Reservation),
      (applySuggestionsGo prev l).length = l.length := by
  intro l
  induction l with
  | nil => intro prev; rfl
  | cons c t ih =>
    intro prev
    show (applySuggestionsGo _ t).length + 1 = t.length + 1
    rw [ih]

/-! ## Helper lemmas: conflict detection -/

lemma mem_jScan {cur : Reservation} :
    ∀ {rest : List (Nat × Reservation)} {processed : List Nat}
      {p : Nat × Reservation},
      p ∈ jScan cur rest processed →
      p ∈ rest ∧ p.1 ∉ processed ∧ conflictsWith cur p.2 = true := by
  intro rest
  induction rest with
  | nil =>
    intro processed p h
    exact absurd h (List.not_mem_nil p)
  | cons hd tl ih =>
    intro processed p h
    obtain ⟨j, r⟩ := hd
    simp only [jScan] at h
    by_cases hj : j ∈ processed
    · rw [if_pos hj] at h
      obtain ⟨hin, hnp, hc⟩ := ih h
      exact ⟨List.mem_cons_of_mem _ hin, hnp, hc⟩
    · rw [if_neg hj] at h
      by_cases hc : conflictsWith cur r = true
      · rw [if_pos hc] at h
        rcases List.mem_cons.mp h with rfl | h'
        · exact ⟨List.mem_cons_self _ _, hj, hc⟩
        · obtain ⟨hin, hnp, hcc⟩ := ih h'
          refine ⟨List.mem_cons_of_mem _ hin, fun hmem => hnp ?_, hcc⟩
          exact List.mem_append_left _ hmem
      · rw [if_neg hc] at h
        obtain ⟨hin, hnp, hcc⟩ := ih h
        exact ⟨List.mem_cons_of_mem _ hin, hnp, hcc⟩

lemma jScan_eq_filter {cur : Reservation} :
    ∀ {rest : List (Nat × Reservation)} {processed : List Nat},
      (rest.map Prod.fst).Nodup →
      jScan cur rest processed = rest.filter
        (fun p => decide (p.1 ∉ processed) && conflictsWith cur p.2) := by
  intro rest
  induction rest with
  | nil => intro processed _; rfl
  | cons hd tl ih =>
    intro processed hnd
    obtain ⟨j, r⟩ := hd
    rw [List.map_cons, List.nodup_cons] at hnd
    obtain ⟨hjn, hnd1⟩ := hnd
    simp only [jScan, List.filter_cons]
    by_cases hj : j ∈ processed
    · have hcond : (decide ((j, r).1 ∉ processed) && conflictsWith cur (j, r).2)
          = false := by
        simp [hj]
      rw [if_pos hj, hcond, if_neg Bool.false_ne_true]
      exact ih hnd1
    · rw [if_neg hj]
      by_cases hc : conflictsWith cur r = true
      · have hcond : (decide ((j, r).1 ∉ processed) && conflictsWith cur (j, r).2)
            = true := by
          simp [hj, hc]
        rw [if_pos hc, hcond, if_pos rfl]
        rw [ih hnd1]
        apply congrArg
        apply List.filter_congr
        intro p hp
        have hne : p.1 ≠ j := by
          intro hfst
          have hmm : p.1 ∈ tl.map Prod.fst := List.mem_map_of_mem Prod.fst hp
          rw [hfst] at hmm
          exact hjn hmm
        have : (p.1 ∉ processed ++ [j]) ↔ (p.1 ∉ processed) := by
          simp [List.mem_append, hne]
        rw [decide_eq_decide.mpr this]
      · have hcond : (decide ((j, r).1 ∉ processed) && conflictsWith cur (j, r).2)
            = false := by
          simp [hj, hc]
        rw [if_neg hc, hcond, if_neg Bool.false_ne_true]
        exact ih hnd1

lemma fcGo_eq_spec {acks ress : List Reservation} :
    ∀ {rest : List (Nat × Reservation)} (processed : List Nat),
      (rest.map Prod.fst).Nodup →
      fcGo acks ress rest processed = fcGoSpec acks ress rest processed := by
  intro rest
  induction rest with
  | nil => intro processed _; rfl
  | cons hd tl ih =>
    intro processed hnd
    obtain ⟨i, cur⟩ := hd
    have hnd1 : (tl.map Prod.fst).Nodup := by
      rw [List.map_cons, List.nodup_cons] at hnd
      exact hnd.2
    simp only [fcGo, fcGoSpec]
    rw [jScan_eq_filter hnd1]
    by_cases hj : i ∈ processed
    · rw [if_pos hj, if_pos hj]
      exact ih processed hnd1
    · rw [if_neg hj, if_neg hj]
      split
      · rw [ih _ hnd1]
      · rw [ih _ hnd1]

lemma indexed_map_snd : ∀ (i : Nat) (l : List α),
    (indexed i l).map Prod.snd = l := by
  intro i l
  induction l generalizing i with
  | nil => rfl
  | cons x xs ih => simp [indexed, ih]

lemma indexed_fst_ge :
    ∀ {i : Nat} {l : List α} {p : Nat × α}, p ∈ indexed i l → i ≤ p.1 := by
  intro i l
  induction l generalizing i with
  | nil => intro p h; exact absurd h (List.not_mem_nil p)
  | cons x xs ih =>
    intro p h
    rcases List.mem_cons.mp h with rfl | h'
    · exact le_refl _
    · exact Nat.le_of_succ_le (ih h')

lemma indexed_map_fst_nodup : ∀ (i : Nat) (l : List α),
    ((indexed i l).map Prod.fst).Nodup := by
  intro i l
  induction l generalizing i with
  | nil => exact List.nodup_nil
  | cons x xs ih =>
    rw [indexed, List.map_cons, List.nodup_cons]
    refine ⟨?_, ih (i + 1)⟩
    intro hmem
    obtain ⟨p, hp, hfst⟩ := List.mem_map.mp hmem
    have := indexed_fst_ge hp
    omega

lemma fcGo_shape {acks ress : List Reservation} :
    ∀ {rest : List (Nat × Reservation)} {processed : List Nat}
      {g : ConflictGroup}, g ∈ fcGo acks ress rest processed →
      ∃ cur laterNew, cur ∈ rest.map Prod.snd
        ∧ (∀ x ∈ laterNew, x ∈ rest.map Prod.snd)
        ∧ g.reservations = cur :: (laterNew
            ++ acks.filter (fun a => conflictsWith cur a)
            ++ ress.filter (fun x => conflictsWith cur x))
        ∧ 1 < g.reservations.length
        ∧ g.device = cur.device ∧ g.labRegion = cur.labRegion := by
  intro rest
  induction rest with
  | nil => intro processed g h; exact absurd h (List.not_mem_nil g)
  | cons hd tl ih =>
    intro processed g h
    obtain ⟨i, cur⟩ := hd
    simp only [fcGo] at h
    by_cases hj : i ∈ processed
    · rw [if_pos hj] at h
      obtain ⟨c, L, hc, hL, hres, hlen2, hdv, hrg⟩ := ih h
      refine ⟨c, L, ?_, ?_, hres, hlen2, hdv, hrg⟩
      · rw [List.map_cons]; exact List.mem_cons_of_mem _ hc
      · intro x hx
        rw [List.map_cons]; exact List.mem_cons_of_mem _ (hL x hx)
    · rw [if_neg hj] at h
      split at h
      next hlen =>
        rcases List.mem_cons.mp h with rfl | h1
        · refine ⟨cur, (jScan cur tl processed).map Prod.snd, ?_, ?_,
            rfl, hlen, rfl, rfl⟩
          · rw [List.map_cons]; exact List.mem_cons_self _ _
          · intro x hx
            obtain ⟨p, hp, hsnd⟩ := List.mem_map.mp hx
            rw [List.map_cons]
            refine List.mem_cons_of_mem _ ?_
            rw [← hsnd]
            exact List.mem_map_of_mem Prod.snd (mem_jScan hp).1
        · obtain ⟨c, L, hc, hL, hres, hlen2, hdv, hrg⟩ := ih h1
          refine ⟨c, L, ?_, ?_, hres, hlen2, hdv, hrg⟩
          · rw [List.map_cons]; exact List.mem_cons_of_mem _ hc
          · intro x hx
            rw [List.map_cons]; exact List.mem_cons_of_mem _ (hL x hx)
      next hlen =>
        obtain ⟨c, L, hc, hL, hres, hlen2, hdv, hrg⟩ := ih h
        refine ⟨c, L, ?_, ?_, hres, hlen2, hdv, hrg⟩
        · rw [List.map_cons]; exact List.mem_cons_of_mem _ hc
        · intro x hx
          rw [List.map_cons]; exact List.mem_cons_of_mem _ (hL x hx)

lemma fcGo_blocked {acks ress : List Reservation} {x : Reservation}
    (hxa : x ∉ acks) (hxr : x ∉ ress) :
    ∀ {rest : List (Nat × Reservation)} {processed : List Nat},
      (∀ j, (j, x) ∈ rest → j ∈ processed) →
      ∀ {g : ConflictGroup}, g ∈ fcGo acks ress rest processed →
        x ∉ g.reservations := by
  intro rest
  induction rest with
  | nil => intro processed _ g h; exact absurd h (List.not_mem_nil g)
  | cons hd tl ih =>
    intro processed hblock g h
    obtain ⟨i, cur⟩ := hd
    simp only [fcGo] at h
    by_cases hj : i ∈ processed
    · rw [if_pos hj] at h
      exact ih (fun j hjx => hblock j (List.mem_cons_of_mem _ hjx)) h
    · rw [if_neg hj] at h
      split at h
      next hlen =>
        rcases List.mem_cons.mp h with rfl | h1
        · intro hxg
          rcases List.mem_cons.mp hxg with heq | hxg1
          · apply hj
            apply hblock i
            rw [heq]
            exact List.mem_cons_self _ _
          · rcases List.mem_append.mp hxg1 with hxg2 | hxr2
            · rcases List.mem_append.mp hxg2 with hxl | hxa2
              · obtain ⟨p, hp, hsnd⟩ := List.mem_map.mp hxl
                obtain ⟨hptl, hpnp, _⟩ := mem_jScan hp
                have hpx : (p.1, x) ∈ tl := by rw [← hsnd]; exact hptl
                exact hpnp (hblock p.1 (List.mem_cons_of_mem _ hpx))
              · exact hxa (List.mem_filter.mp hxa2).1
            · exact hxr (List.mem_filter.mp hxr2).1
        · exact ih (fun j hjx => List.mem_cons_of_mem _
            (List.mem_append_left _ (hblock j (List.mem_cons_of_mem _ hjx))))
            h1
      next hlen =>
        exact ih (fun j hjx => List.mem_append_left _
          (hblock j (List.mem_cons_of_mem _ hjx))) h

lemma snd_nodup_unique :
    ∀ {l : List (Nat × α)}, (l.map Prod.snd).Nodup →
      ∀ {j1 j2 : Nat} {x : α}, (j1, x) ∈ l → (j2, x) ∈ l → j1 = j2 := by
  intro l
  induction l with
  | nil => intro _ j1 j2 x h _; exact absurd h (List.not_mem_nil _)
  | cons hd tl ih =>
    intro hnd j1 j2 x h1 h2
    rw [List.map_cons, List.nodup_cons] at hnd
    obtain ⟨hx, hnd1⟩ := hnd
    rcases List.mem_cons.mp h1 with heq1 | h1'
    · rcases List.mem_cons.mp h2 with heq2 | h2'
      · rw [← heq2] at heq1
        exact (Prod.ext_iff.mp heq1).1
      · exfalso
        apply hx
        rw [← heq1]
        have hmm := List.mem_map_of_mem Prod.snd h2'
        exact hmm
    · rcases List.mem_cons.mp h2 with heq2 | h2'
      · exfalso
        apply hx
        rw [← heq2]
        have hmm := List.mem_map_of_mem Prod.snd h1'
        exact hmm
      · exact ih hnd1 h1' h2'

lemma fcGo_countP {acks ress : List Reservation} {x : Reservation}
    (hxa : x ∉ acks) (hxr : x ∉ ress) :
    ∀ {rest : List (Nat × Reservation)} (processed : List Nat),
      (rest.map Prod.snd).Nodup →
      (fcGo acks ress rest processed).countP
        (fun g => decide (x ∈ g.reservations)) ≤ 1 := by
  intro rest
  induction rest with
  | nil => intro processed _; simp [fcGo]
  | cons hd tl ih =>
    intro processed hnd
    obtain ⟨i, cur⟩ := hd
    rw [List.map_cons, List.nodup_cons] at hnd
    obtain ⟨hcur, hnd1⟩ := hnd
    simp only [fcGo]
    by_cases hj : i ∈ processed
    · rw [if_pos hj]; exact ih processed hnd1
    · rw [if_neg hj]
      split
      next hlen =>
        rw [List.countP_cons]
        set P1 : List Nat :=
          i :: (processed ++ (jScan cur tl processed).map Prod.fst) with hP1
        by_cases hxg : x ∈ cur :: ((jScan cur tl processed).map Prod.snd
            ++ acks.filter (fun a => conflictsWith cur a)
            ++ ress.filter (fun y => conflictsWith cur y))
        · have hb : ∀ j, (j, x) ∈ tl → j ∈ P1 := by
            intro j hjx
            rcases List.mem_cons.mp hxg with heq | hxg1
            · exfalso
              apply hcur
              rw [← heq]
              have hmm := List.mem_map_of_mem Prod.snd hjx
              exact hmm
            · rcases List.mem_append.mp hxg1 with hxg2 | hxr2
              · rcases List.mem_append.mp hxg2 with hxl | hxa2
                · obtain ⟨p, hp, hsnd⟩ := List.mem_map.mp hxl
                  have hptl : (p.1, x) ∈ tl := by
                    rw [← hsnd]; exact (mem_jScan hp).1
                  have hjp : j = p.1 := snd_nodup_unique hnd1 hjx hptl
                  refine List.mem_cons_of_mem _ (List.mem_append_right _ ?_)
                  rw [hjp]
                  exact List.mem_map_of_mem Prod.fst hp
                · exact absurd (List.mem_filter.mp hxa2).1 hxa
              · exact absurd (List.mem_filter.mp hxr2).1 hxr
          have hz : (fcGo acks ress tl P1).countP
              (fun g => decide (x ∈ g.reservations)) = 0 := by
            rw [List.countP_eq_zero]
            intro g1 hg1
            simp only [decide_eq_true_eq]
            exact fcGo_blocked hxa hxr hb hg1
          have hone : (if (fun g : ConflictGroup =>
              decide (x ∈ g.reservations))
                { device := cur.device, labRegion := cur.labRegion,
                  reservations := cur :: ((jScan cur tl processed).map Prod.snd
                    ++ acks.filter (fun a => conflictsWith cur a)
                    ++ ress.filter (fun y => conflictsWith cur y)) } = true
              then 1 else 0) = 1 := by
            simp only [decide_eq_true_eq]
            rw [if_pos hxg]
          rw [hz, hone]
        · have hzero : (if (fun g : ConflictGroup =>
              decide (x ∈ g.reservations))
                { device := cur.device, labRegion := cur.labRegion,
                  reservations := cur :: ((jScan cur tl processed).map Prod.snd
                    ++ acks.filter (fun a => conflictsWith cur a)
                    ++ ress.filter (fun y => conflictsWith cur y)) } = true
              then 1 else 0) = 0 := by
            simp only [decide_eq_true_eq]
            rw [if_neg hxg]
          rw [hzero]
          have h1 := ih P1 hnd1
          omega
      next hlen =>
        have h1 := ih (processed
          ++ (jScan cur tl processed).map Prod.fst) hnd1
        omega

/-! ## Claim theorems -/

/-- Claim C1: every `findConflicts` run matches the spec-side description
(one unconsumed candidate seed plus exactly the later unconsumed
candidates, acknowledged and resolved reservations directly overlapping the
seed), a group is emitted only with more than one member, and grouping is
not transitive: with A overlapping B, B overlapping C, A not overlapping C
and A processed first, the emitted group is exactly {A, B} and C appears in
no group. -/
theorem C1_findConflicts_grouping :
    (∀ n a r : List Reservation, findConflicts n a r = findConflictsSpec n a r)
    ∧ (∀ (n a r : List Reservation) (g : ConflictGroup),
        g ∈ findConflicts n a r → 1 < g.reservations.length)
    ∧ (conflictsWith cA cB = true ∧ conflictsWith cB cC = true
        ∧ conflictsWith cA cC = false
        ∧ findConflicts [cA, cB, cC] [] [] =
            [{ device := "dev", labRegion := "reg",
               reservations := [cA, cB] }]) := by
  refine ⟨?_, ?_, by decide⟩
  · intro n a r
    exact fcGo_eq_spec [] (indexed_map_fst_nodup 0 n)
  · intro n a r g hg
    obtain ⟨c, L, hc, hL, hres, hlen, hdv, hrg⟩ := fcGo_shape hg
    exact hlen

/-- Claim C1 witness: the emitted-group-size bound applied to the concrete
non-transitive chain. -/
theorem C1_witness :
    1 < (ConflictGroup.mk "dev" "reg" [cA, cB]).reservations.length :=
  C1_findConflicts_grouping.2.1 [cA, cB, cC] [] []
    { device := "dev", labRegion := "reg", reservations := [cA, cB] }
    (by decide)

/-- Claim C3: touching intervals (A.end = B.start) on the same device and
region trigger no detected conflict in either direction, yet the
unique-days sweep merges them into one run covering
`B.end - A.start + 1` days. -/
theorem C3_touching_boundary (A B : Reservation)
    (hdev : normalize A.device = normalize B.device)
    (hreg : normalize A.labRegion = normalize B.labRegion)
    (htouch : A.endDate = B.startDate)
    (hA : A.startDate ≤ A.endDate) (hB : B.startDate ≤ B.endDate) :
    conflictsWith A B = false ∧ conflictsWith B A = false
    ∧ (mergeSortedRanges
        (sortRangesByStart [toDRange A, toDRange B])).length = 1
    ∧ calculateUniqueDaysUsed [A, B] = B.endDate - A.startDate + 1 := by
  have hno : decide (B.startDate < A.endDate) = false :=
    decide_eq_false (by omega)
  have hle : decide ((toDRange A).start ≤ (toDRange B).start) = true := by
    apply decide_eq_true
    show A.startDate ≤ B.startDate
    omega
  have hsorted : sortRangesByStart [toDRange A, toDRange B] =
      [toDRange A, toDRange B] := by
    show insertLe (fun a b : DRange => decide (a.start ≤ b.start))
        (toDRange B) (insertLe (fun a b : DRange => decide (a.start ≤ b.start))
          (toDRange A) []) = [toDRange A, toDRange B]
    simp only [insertLe, hle, if_true]
  have hc2 : (toDRange B).start ≤ (toDRange A).stop := by
    show B.startDate ≤ A.endDate
    omega
  have hmax : max (toDRange A).stop (toDRange B).stop = B.endDate := by
    show max A.endDate B.endDate = B.endDate
    exact max_eq_right (by omega)
  have hmerge : mergeSortedRanges [toDRange A, toDRange B] =
      [{ start := A.startDate, stop := B.endDate }] := by
    show mergeRangesGo (toDRange A) [toDRange B] = _
    rw [mergeRangesGo, if_pos hc2, mergeRangesGo, hmax]
    rfl
  refine ⟨?_, ?_, ?_, ?_⟩
  · unfold conflictsWith
    rw [if_pos ⟨hdev, hreg⟩]
    unfold dateRangesOverlap
    rw [hno, Bool.and_false]
  · unfold conflictsWith
    rw [if_pos ⟨hdev.symm, hreg.symm⟩]
    unfold dateRangesOverlap
    rw [hno, Bool.false_and]
  · rw [hsorted, hmerge]
    rfl
  · have h0 : calculateUniqueDaysUsed [A, B] = totalDaysOfRanges
        (mergeSortedRanges (sortRangesByStart [toDRange A, toDRange B])) :=
      rfl
    rw [h0, hsorted, hmerge]
    show 0 + (B.endDate - A.startDate + 1) = B.endDate - A.startDate + 1
    omega

/-- Claim C3 witness: the touching pair day 10..15 / 15..20. -/
theorem C3_witness :
    normalize c3A.device = normalize c3B.device
    ∧ c3A.endDate = c3B.startDate
    ∧ conflictsWith c3A c3B = false ∧ conflictsWith c3B c3A = false
    ∧ (mergeSortedRanges
        (sortRangesByStart [toDRange c3A, toDRange c3B])).length = 1
    ∧ calculateUniqueDaysUsed [c3A, c3B] = 11 := by
  have h := C3_touching_boundary c3A c3B (by decide) (by decide) (by decide)
    (by decide) (by decide)
  exact ⟨by decide, by decide, h.1, h.2.1, h.2.2.1, by
    rw [h.2.2.2]; decide⟩

/-- Claim C4 counterexample: the code's suggestion for member 2 of the
documented example ends on 2024-01-10 (`newStart + duration - 1` with
duration 5), not on 2024-01-09 as the claim states. -/
theorem C4_counterexample :
    (resolveConflictsStabilityMode (findConflicts [c4r1, c4r2] [] [])).map
        (fun g => g.reservations.map (fun r => r.suggestion)) =
      [[none, some { newStart := mkDate 2024 1 6,
                     newEnd := mkDate 2024 1 10, durationDays := 5 }]]
    ∧ mkDate 2024 1 10 ≠ mkDate 2024 1 9 := by decide

/-- Claim C4 (corrected): the concrete example produces one conflict group
of size 2 with primary id "1"; member 2's suggestion starts on 2024-01-06
and ends on 2024-01-10 (not 2024-01-09). -/
theorem C4_example_resolution :
    (findConflicts [c4r1, c4r2] [] []).length = 1
    ∧ (findConflicts [c4r1, c4r2] [] []).map
        (fun g => g.reservations.length) = [2]
    ∧ (resolveConflictsStabilityMode (findConflicts [c4r1, c4r2] [] [])).map
        (fun g => (getPrimaryReservation g).map (fun r => r.id)) = [some "1"]
    ∧ (resolveConflictsStabilityMode (findConflicts [c4r1, c4r2] [] [])).map
        (fun g => g.reservations.map (fun r =>
          r.suggestion.map (fun s => (s.newStart, s.newEnd)))) =
      [[none, some (mkDate 2024 1 6, mkDate 2024 1 10)]] := by decide

/-- Claim C5 counterexample: in a two-member group whose first member's id
"abc" parses as NaN, resolution's id sort leaves that member first, not
last. -/
theorem C5_counterexample :
    parseIntJs c5x.id = none
    ∧ (resolveGroup c5group).reservations.map (fun r => r.id) = ["abc", "1"]
    ∧ ((resolveGroup c5group).reservations.getLast?).map (fun r => r.id) ≠
        some "abc" := by decide

/-- Claim C5 (corrected): a comparison involving a NaN id evaluates to 0
(treated as equal — the comparator never crashes), so the stable sort keeps
a NaN-id member in its original position: in a two-member group led by a
NaN-id member, the sort leaves it first rather than last. -/
theorem C5_nan_comparator (a b x y : Reservation)
    (hnan : parseIntJs a.id = none ∨ parseIntJs b.id = none)
    (hx : parseIntJs x.id = none) :
    compareIdsJs a b = 0 ∧ stableSort idSortLe [x, y] = [x, y] := by
  constructor
  · unfold compareIdsJs
    rcases hnan with h | h
    · rw [h]
    · rw [h]
      cases parseIntJs a.id <;> rfl
  · show insertLe idSortLe y (insertLe idSortLe x []) = [x, y]
    have hle : idSortLe x y = true := by
      unfold idSortLe compareIdsJs
      rw [hx]
      rfl
    simp only [insertLe, hle, if_true]

/-- Claim C5 witness: the NaN-id pair instance. -/
theorem C5_witness :
    (parseIntJs c5x.id = none ∨ parseIntJs c5a.id = none)
    ∧ compareIdsJs c5x c5a = 0
    ∧ stableSort idSortLe [c5x, c5a] = [c5x, c5a] := by
  have h := C5_nan_comparator c5x c5a c5x c5a (Or.inl (by decide)) (by decide)
  exact ⟨Or.inl (by decide), h.1, h.2⟩

/-- Claim C8 counterexample: the same-day reservation `c8A` is non-empty in
the data model (duration 1 day, start <= end), yet the self-overlap test is
false. -/
theorem C8_counterexample :
    c8A.startDate = c8A.endDate ∧ getDurationInDays c8A = 1
    ∧ conflictsWith c8A c8A = false := by decide

/-- Claim C8 (corrected): the conflict test is symmetric for all pairs, the
raw date-range overlap test is symmetric, and the self-overlap test equals
`start < end` — so only reservations spanning strictly increasing raw dates
self-overlap, while same-day (one-day) reservations do not. -/
theorem C8_overlap_symmetry_reflexivity :
    (∀ a b : Reservation, conflictsWith a b = conflictsWith b a)
    ∧ (∀ s1 e1 s2 e2 : Int,
        dateRangesOverlap s1 e1 s2 e2 = dateRangesOverlap s2 e2 s1 e1)
    ∧ (∀ a : Reservation,
        conflictsWith a a = decide (a.startDate < a.endDate)) := by
  refine ⟨?_, ?_, ?_⟩
  · intro a b
    unfold conflictsWith
    by_cases h1 : normalize a.device = normalize b.device ∧
        normalize a.labRegion = normalize b.labRegion
    · rw [if_pos h1, if_pos ⟨h1.1.symm, h1.2.symm⟩]
      unfold dateRangesOverlap
      exact Bool.and_comm _ _
    · rw [if_neg h1, if_neg (fun h2 => h1 ⟨h2.1.symm, h2.2.symm⟩)]
  · intro s1 e1 s2 e2
    unfold dateRangesOverlap
    exact Bool.and_comm _ _
  · intro a
    unfold conflictsWith dateRangesOverlap
    rw [if_pos ⟨rfl, rfl⟩, Bool.and_self]

/-- Claim C2: stability-mode resolution of a group with all-numeric ids
sorts the members ascending by numeric id; the first (lowest-id) member
keeps no suggestion, and every later member's suggestion is
`newStart = previous member's original end + BUFFER_DAYS` and
`newEnd = newStart + its own original duration - 1`, anchored to the
predecessor in the *sorted, unmodified* list — a previously suggested end
date is never the anchor. -/
theorem C2_stability_resolution (g : ConflictGroup)
    (hids : ∀ r ∈ g.reservations, (parseIntJs r.id).isSome = true)
    (hnosugg : ∀ r ∈ g.reservations, r.suggestion = none) :
    resolveConflictsStabilityMode [g] = [resolveGroup g]
    ∧ (stableSort idSortLe g.reservations).Perm g.reservations
    ∧ (stableSort idSortLe g.reservations).Pairwise
        (fun a b => idNumOf a ≤ idNumOf b)
    ∧ (∀ x, (resolveGroup g).reservations.head? = some x →
        x.suggestion = none ∧ ∀ r ∈ g.reservations, idNumOf x ≤ idNumOf r)
    ∧ (∀ (i : Nat) (prev cur outMember : Reservation),
        (stableSort idSortLe g.reservations).get? i = some prev →
        (stableSort idSortLe g.reservations).get? (i + 1) = some cur →
        (resolveGroup g).reservations.get? (i + 1) = some outMember →
        outMember.suggestion = some
          { newStart := prev.endDate + BUFFER_DAYS
            newEnd := prev.endDate + BUFFER_DAYS + getDurationInDays cur - 1
            durationDays := getDurationInDays cur }) := by
  have hpw : (stableSort idSortLe g.reservations).Pairwise
      (fun a b => idSortLe a b = true) :=
    stableSort_pairwise (fun a _ b _ => idSortLe_total a b)
      (fun a ha b hb c hc hab hbc =>
        idSortLe_trans_of_parse (hids a ha) (hids b hb) (hids c hc) hab hbc)
  have hpw2 : (stableSort idSortLe g.reservations).Pairwise
      (fun a b => idNumOf a ≤ idNumOf b) := by
    refine hpw.imp_of_mem ?_
    intro a b ha hb hab
    exact idSortLe_imp_idNum (hids a (mem_stableSort.mp ha))
      (hids b (mem_stableSort.mp hb)) hab
  refine ⟨rfl, stableSort_perm idSortLe g.reservations, hpw2, ?_, ?_⟩
  · intro x hx
    rcases hs : stableSort idSortLe g.reservations with _ | ⟨f, rest⟩
    · rw [show (resolveGroup g).reservations =
          match stableSort idSortLe g.reservations with
          | [] => []
          | first :: rest => first :: applySuggestionsGo first rest from rfl,
        hs] at hx
      exact absurd hx (by simp)
    · rw [show (resolveGroup g).reservations =
          match stableSort idSortLe g.reservations with
          | [] => []
          | first :: rest => first :: applySuggestionsGo first rest from rfl,
        hs] at hx
      have hxf : f = x := by
        simpa using hx
      have hfs : f ∈ stableSort idSortLe g.reservations := by
        rw [hs]
        exact List.mem_cons_self _ _
      have hfg : f ∈ g.reservations := mem_stableSort.mp hfs
      refine ⟨?_, ?_⟩
      · rw [← hxf]
        exact hnosugg f hfg
      · intro r hr
        rw [← hxf]
        have hrs : r ∈ stableSort idSortLe g.reservations :=
          mem_stableSort.mpr hr
        rw [hs] at hrs
        rcases List.mem_cons.mp hrs with rfl | hr'
        · exact le_refl _
        · rw [hs] at hpw2
          exact (List.pairwise_cons.mp hpw2).1 r hr'
  · intro i prev cur outMember h1 h2 h3
    rcases hs : stableSort idSortLe g.reservations with _ | ⟨f, rest⟩
    · rw [hs] at h2
      exact absurd h2 (by simp)
    · rw [hs] at h1 h2
      rw [show (resolveGroup g).reservations =
          match stableSort idSortLe g.reservations with
          | [] => []
          | first :: rest => first :: applySuggestionsGo first rest from rfl,
        hs] at h3
      have h3' : (applySuggestionsGo f rest).get? i = some outMember := h3
      rw [applySuggestionsGo_get?] at h3'
      have h2' : rest.get? i = some cur := h2
      rw [h2', h1] at h3'
      have h4 : some ({ cur with
          suggestion := some (generateRescheduleSuggestion prev cur) }) =
          some outMember := h3'
      injection h4 with h5
      rw [← h5]
      rfl

/-- Claim C2 witness: the fully overlapping 3-chain with ids 1, 2, 3;
member 3's suggestion is anchored at member 2's original end (day 8, so it
starts on day 9), not at member 2's suggested end (day 11). -/
theorem C2_witness :
    (∀ r ∈ c2group.reservations, (parseIntJs r.id).isSome = true)
    ∧ (∀ r ∈ c2group.reservations, r.suggestion = none)
    ∧ (stableSort idSortLe c2group.reservations).Pairwise
        (fun a b => idNumOf a ≤ idNumOf b)
    ∧ (∀ x, (resolveGroup c2group).reservations.head? = some x →
        x.suggestion = none
        ∧ ∀ r ∈ c2group.reservations, idNumOf x ≤ idNumOf r)
    ∧ (resolveGroup c2group).reservations.map (fun r =>
        r.suggestion.map (fun s => (s.newStart, s.newEnd))) =
      [none, some (6, 11), some (9, 14)] := by
  have h := C2_stability_resolution c2group (by decide) (by decide)
  exact ⟨by decide, by decide, h.2.2.1, h.2.2.2.1, by decide⟩

lemma filter_idem (p : α → Bool) (l : List α) :
    (l.filter p).filter p = l.filter p := by
  induction l with
  | nil => rfl
  | cons x xs ih =>
    by_cases h : p x = true
    · rw [List.filter_cons, if_pos h, List.filter_cons, if_pos h, ih]
    · rw [List.filter_cons, if_neg h, ih]

/-- Claim C7 counterexample: two overlapping reservations with status
`new` produce a nonzero conflict heatmap and conflict analysis, while the
resolved-only subset (empty here) produces zero — so the heatmap and the
conflict analysis are *not* computed over only resolved reservations. -/
theorem C7_counterexample :
    hr1.status = "new" ∧ hr2.status = "new"
    ∧ (generateStatistics today2024 [hr1, hr2] 0
        ).utilizationHeatmap.totalConflicts = 1
    ∧ (generateStatistics today2024 [hr1, hr2] 0
        ).conflictAnalysis.totalConflicts = 1
    ∧ (generateStatistics today2024
        ([hr1, hr2].filter (fun r => decide (r.status = "resolved"))) 0
        ).utilizationHeatmap.totalConflicts = 0
    ∧ (generateStatistics today2024
        ([hr1, hr2].filter (fun r => decide (r.status = "resolved"))) 0
        ).conflictAnalysis.totalConflicts = 0 := by decide

/-- Claim C7 (corrected): device utilization, efficiency metrics, top users
and the summary are computed over only the resolved (and optionally
timeframe-filtered) reservations — deleting all non-resolved reservations
leaves them unchanged.  The conflict heatmap and the conflict analysis are
computed over the full reservation list regardless of status (see the
counterexample). -/
theorem C7_resolved_only_views (today : Today) (l : List Reservation)
    (monthsBack : Nat) :
    (generateStatistics today l monthsBack).deviceUtilization =
      (generateStatistics today
        (l.filter (fun r => decide (r.status = "resolved"))) monthsBack
        ).deviceUtilization
    ∧ (generateStatistics today l monthsBack).efficiencyMetrics =
      (generateStatistics today
        (l.filter (fun r => decide (r.status = "resolved"))) monthsBack
        ).efficiencyMetrics
    ∧ (generateStatistics today l monthsBack).topUsers =
      (generateStatistics today
        (l.filter (fun r => decide (r.status = "resolved"))) monthsBack
        ).topUsers
    ∧ (generateStatistics today l monthsBack).summary =
      (generateStatistics today
        (l.filter (fun r => decide (r.status = "resolved"))) monthsBack
        ).summary := by
  have h : (l.filter (fun r => decide (r.status = "resolved"))).filter
      (fun r => decide (r.status = "resolved")) =
      l.filter (fun r => decide (r.status = "resolved")) :=
    filter_idem _ _
  refine ⟨?_, ?_, ?_, ?_⟩ <;> simp only [generateStatistics, h]

/-- Claim C9: `generateStatistics` on an empty reservation list returns
zero-valued / empty aggregations for every view and reaches no throwing
`reduce` (both heatmap reduce results exist). -/
theorem C9_empty_input_statistics (today : Today) :
    (generateStatistics today [] 6).deviceUtilization =
      { selectedPeriod := [], timeframe := 6, periodLabel := "Last 180 days" }
    ∧ (generateStatistics today [] 6).topUsers = []
    ∧ (generateStatistics today [] 6).summary =
      { totalReservations := 0, totalDays := 0, uniqueDevices := 0,
        uniqueUsers := 0, uniqueRegions := 0, dateRange := none,
        timeframe := "Last 6 months" }
    ∧ (generateStatistics today [] 6).efficiencyMetrics =
      { avgBookingLeadTime := 26 / 5, avgActualDuration := 0,
        earlyTerminationRate := 0, lastMinuteBookingRate := 12,
        efficiencyOpportunities := ["Booking patterns appear efficient"] }
    ∧ (generateStatistics today [] 6).conflictAnalysis =
      { totalConflicts := 0, topBottlenecks := [],
        recommendations := ["No conflicts detected in selected timeframe"] }
    ∧ (generateStatistics today [] 6).utilizationHeatmap.totalConflicts = 0
    ∧ (generateStatistics today [] 6).utilizationHeatmap.monthlyConflicts.all
        (fun md => md.conflicts == 0) = true
    ∧ (generateStatistics today [] 6
        ).utilizationHeatmap.peakMonth.isSome = true
    ∧ (generateStatistics today [] 6
        ).utilizationHeatmap.lowMonth.isSome = true := by
  refine ⟨rfl, rfl, rfl, ?_, rfl, rfl, rfl, rfl, rfl⟩
  show getSimpleEfficiency [] = _
  rw [getSimpleEfficiency]
  norm_num [round]

/-- Claim C10: in a single `findConflicts` run over distinct candidates and
status-disjoint fixed lists, each candidate appears as a member of at most
one emitted group, while an acknowledged (resp. resolved) reservation is a
member of exactly the groups whose seed (first member) it directly overlaps
— it is not consumed across groups. -/
theorem C10_membership :
    (∀ (n a r : List Reservation) (x : Reservation),
      n.Nodup → x ∉ a → x ∉ r →
      (findConflicts n a r).countP
        (fun g => decide (x ∈ g.reservations)) ≤ 1)
    ∧ (∀ (n a r : List Reservation) (x : Reservation) (g : ConflictGroup),
        x ∉ n → x ∈ a → x ∉ r → g ∈ findConflicts n a r →
        (x ∈ g.reservations ↔ ∃ seed, g.reservations.head? = some seed
          ∧ conflictsWith seed x = true))
    ∧ (∀ (n a r : List Reservation) (x : Reservation) (g : ConflictGroup),
        x ∉ n → x ∉ a → x ∈ r → g ∈ findConflicts n a r →
        (x ∈ g.reservations ↔ ∃ seed, g.reservations.head? = some seed
          ∧ conflictsWith seed x = true)) := by
  refine ⟨?_, ?_, ?_⟩
  · intro n a r x hnd hxa hxr
    apply fcGo_countP hxa hxr []
    rw [indexed_map_snd]
    exact hnd
  · intro n a r x g hxn hxa hxr hg
    obtain ⟨c, L, hc, hL, hres, hlen, _, _⟩ := fcGo_shape hg
    rw [indexed_map_snd] at hc hL
    constructor
    · intro hxg
      rw [hres] at hxg
      rcases List.mem_cons.mp hxg with heq | hxg1
      · exact absurd (by rw [heq]; exact hc) hxn
      · rcases List.mem_append.mp hxg1 with h2 | h3
        · rcases List.mem_append.mp h2 with hL2 | hA2
          · exact absurd (hL x hL2) hxn
          · refine ⟨c, ?_, (List.mem_filter.mp hA2).2⟩
            rw [hres]
            rfl
        · exact absurd (List.mem_filter.mp h3).1 hxr
    · rintro ⟨seed, hhead, hconf⟩
      rw [hres] at hhead
      have hseed : c = seed := by simpa using hhead
      rw [← hseed] at hconf
      rw [hres]
      refine List.mem_cons_of_mem _ ?_
      refine List.mem_append_left _ (List.mem_append_right _ ?_)
      exact List.mem_filter.mpr ⟨hxa, hconf⟩
  · intro n a r x g hxn hxa hxr hg
    obtain ⟨c, L, hc, hL, hres, hlen, _, _⟩ := fcGo_shape hg
    rw [indexed_map_snd] at hc hL
    constructor
    · intro hxg
      rw [hres] at hxg
      rcases List.mem_cons.mp hxg with heq | hxg1
      · exact absurd (by rw [heq]; exact hc) hxn
      · rcases List.mem_append.mp hxg1 with h2 | h3
        · rcases List.mem_append.mp h2 with hL2 | hA2
          · exact absurd (hL x hL2) hxn
          · exact absurd (List.mem_filter.mp hA2).1 hxa
        · refine ⟨c, ?_, (List.mem_filter.mp h3).2⟩
          rw [hres]
          rfl
    · rintro ⟨seed, hhead, hconf⟩
      rw [hres] at hhead
      have hseed : c = seed := by simpa using hhead
      rw [← hseed] at hconf
      rw [hres]
      refine List.mem_cons_of_mem _ ?_
      refine List.mem_append_right _ ?_
      exact List.mem_filter.mpr ⟨hxr, hconf⟩

/-- Claim C10 witness: two disjoint-seed groups; the acknowledged
reservation `wa` and the resolved reservation `wr` overlap both seeds and
appear in both groups, while candidate `w1` appears in at most one. -/
theorem C10_witness :
    (findConflicts [w1, w2] [wa] [wr]).countP
        (fun g => decide (w1 ∈ g.reservations)) ≤ 1
    ∧ (wa ∈ (ConflictGroup.mk "dev" "reg" [w1, wa, wr]).reservations ↔
        ∃ seed, (ConflictGroup.mk "dev" "reg"
          [w1, wa, wr]).reservations.head? = some seed
          ∧ conflictsWith seed wa = true)
    ∧ (wr ∈ (ConflictGroup.mk "dev" "reg" [w2, wa, wr]).reservations ↔
        ∃ seed, (ConflictGroup.mk "dev" "reg"
          [w2, wa, wr]).reservations.head? = some seed
          ∧ conflictsWith seed wr = true) :=
  ⟨C10_membership.1 [w1, w2] [wa] [wr] w1 (by decide) (by decide) (by decide),
   C10_membership.2.1 [w1, w2] [wa] [wr] wa _ (by decide) (by decide)
     (by decide) (by decide),
   C10_membership.2.2 [w1, w2] [wa] [wr] wr _ (by decide) (by decide)
     (by decide) (by decide)⟩

lemma heatmap2024_eq (res : List Reservation) :
    getMonthlyConflictPatterns today2024 res =
      heatmapFromBuckets (months2024 (res.filter (fun r =>
        decide (r.startDate ≤ (20072 : Int)) &&
        decide ((19707 : Int) ≤ r.endDate)))) := rfl

lemma filter_pair_of_true {p : α → Bool} {a b : α}
    (ha : p a = true) (hb : p b = true) : [a, b].filter p = [a, b] := by
  simp [List.filter, ha, hb]

lemma filter_pair_of_false {p : α → Bool} {a b : α}
    (ha : p a = false) (hb : p b = false) : [a, b].filter p = [] := by
  simp [List.filter, ha, hb]

lemma bucket_empty {ms me : Int} {r1 r2 : Reservation}
    (h1 : r1.endDate < ms ∨ me < r1.startDate)
    (h2 : r2.endDate < ms ∨ me < r2.startDate) :
    bucketCount ms me [r1, r2] = 0 := by
  unfold bucketCount
  have p1 : (fun r : Reservation =>
      decide (r.startDate ≤ me) && decide (ms ≤ r.endDate)) r1 = false := by
    show (decide (r1.startDate ≤ me) && decide (ms ≤ r1.endDate)) = false
    rcases h1 with h | h
    · have hd : decide (ms ≤ r1.endDate) = false := decide_eq_false (by omega)
      rw [hd, Bool.and_false]
    · have hd : decide (r1.startDate ≤ me) = false := decide_eq_false (by omega)
      rw [hd, Bool.false_and]
  have p2 : (fun r : Reservation =>
      decide (r.startDate ≤ me) && decide (ms ≤ r.endDate)) r2 = false := by
    show (decide (r2.startDate ≤ me) && decide (ms ≤ r2.endDate)) = false
    rcases h2 with h | h
    · have hd : decide (ms ≤ r2.endDate) = false := decide_eq_false (by omega)
      rw [hd, Bool.and_false]
    · have hd : decide (r2.startDate ≤ me) = false := decide_eq_false (by omega)
      rw [hd, Bool.false_and]
  have hf : [r1, r2].filter (fun r : Reservation =>
      decide (r.startDate ≤ me) && decide (ms ≤ r.endDate)) = [] :=
    filter_pair_of_false p1 p2
  rw [hf]
  rfl

/-- Claim C6 counterexample: the overlapping June-2024 pair lies in exactly
one calendar month of the window; `totalConflicts` is 1, but the peak month
(June, 1 conflict) differs from the low month (the first zero-conflict
month), refuting "peak equals low when only one month has data". -/
theorem C6_counterexample :
    (getMonthlyConflictPatterns today2024 [hr1, hr2]).totalConflicts = 1
    ∧ (getMonthlyConflictPatterns today2024
        [hr1, hr2]).monthlyConflicts.countP
        (fun md => decide (md.conflicts ≠ 0)) = 1
    ∧ (getMonthlyConflictPatterns today2024 [hr1, hr2]).peakMonth ≠
        (getMonthlyConflictPatterns today2024 [hr1, hr2]).lowMonth := by
  decide

/-- Claim C6 (corrected): for two reservations inside one calendar month of
the trailing window (June 2024, now = 2024-12-15), `totalConflicts` equals
the inclusive pairwise-overlap count evaluated in that month only; the
reported peak month equals the reported low month exactly when that count
is 0 (when the pair conflicts, the peak is the data month but the low is
the first zero-conflict month, so peak differs from low). -/
theorem C6_single_month_heatmap (r1 r2 : Reservation)
    (h1s : mkDate 2024 6 1 ≤ r1.startDate)
    (h1e : r1.endDate ≤ mkDate 2024 6 30)
    (h2s : mkDate 2024 6 1 ≤ r2.startDate)
    (h2e : r2.endDate ≤ mkDate 2024 6 30)
    (h1o : r1.startDate ≤ r1.endDate)
    (h2o : r2.startDate ≤ r2.endDate) :
    (getMonthlyConflictPatterns today2024 [r1, r2]).totalConflicts =
      countConflictsInPeriod [r1, r2]
    ∧ ((getMonthlyConflictPatterns today2024 [r1, r2]).peakMonth =
        (getMonthlyConflictPatterns today2024 [r1, r2]).lowMonth ↔
        countConflictsInPeriod [r1, r2] = 0) := by
  have e1 : mkDate 2024 6 1 = 19875 := by decide
  have e2 : mkDate 2024 6 30 = 19904 := by decide
  rw [e1] at h1s h2s
  rw [e2] at h1e h2e
  have q1 : (fun r : Reservation => decide (r.startDate ≤ (20072 : Int)) &&
      decide ((19707 : Int) ≤ r.endDate)) r1 = true := by
    show (decide (r1.startDate ≤ (20072 : Int)) &&
      decide ((19707 : Int) ≤ r1.endDate)) = true
    rw [decide_eq_true (show r1.startDate ≤ (20072 : Int) by omega),
      decide_eq_true (show (19707 : Int) ≤ r1.endDate by omega)]
    rfl
  have q2 : (fun r : Reservation => decide (r.startDate ≤ (20072 : Int)) &&
      decide ((19707 : Int) ≤ r.endDate)) r2 = true := by
    show (decide (r2.startDate ≤ (20072 : Int)) &&
      decide ((19707 : Int) ≤ r2.endDate)) = true
    rw [decide_eq_true (show r2.startDate ≤ (20072 : Int) by omega),
      decide_eq_true (show (19707 : Int) ≤ r2.endDate by omega)]
    rfl
  have hrel : [r1, r2].filter (fun r : Reservation =>
      decide (r.startDate ≤ (20072 : Int)) &&
      decide ((19707 : Int) ≤ r.endDate)) = [r1, r2] :=
    filter_pair_of_true q1 q2
  have hjun : bucketCount 19875 19904 [r1, r2] =
      countConflictsInPeriod [r1, r2] := by
    unfold bucketCount
    have j1 : (fun r : Reservation => decide (r.startDate ≤ (19904 : Int)) &&
        decide ((19875 : Int) ≤ r.endDate)) r1 = true := by
      show (decide (r1.startDate ≤ (19904 : Int)) &&
        decide ((19875 : Int) ≤ r1.endDate)) = true
      rw [decide_eq_true (show r1.startDate ≤ (19904 : Int) by omega),
        decide_eq_true (show (19875 : Int) ≤ r1.endDate by omega)]
      rfl
    have j2 : (fun r : Reservation => decide (r.startDate ≤ (19904 : Int)) &&
        decide ((19875 : Int) ≤ r.endDate)) r2 = true := by
      show (decide (r2.startDate ≤ (19904 : Int)) &&
        decide ((19875 : Int) ≤ r2.endDate)) = true
      rw [decide_eq_true (show r2.startDate ≤ (19904 : Int) by omega),
        decide_eq_true (show (19875 : Int) ≤ r2.endDate by omega)]
      rfl
    have hf : [r1, r2].filter (fun r : Reservation =>
        decide (r.startDate ≤ (19904 : Int)) &&
        decide ((19875 : Int) ≤ r.endDate)) = [r1, r2] :=
      filter_pair_of_true j1 j2
    rw [hf]
  have hJan : bucketCount 19723 19753 [r1, r2] = 0 :=
    bucket_empty (Or.inr (by omega)) (Or.inr (by omega))
  have hFeb : bucketCount 19754 19782 [r1, r2] = 0 :=
    bucket_empty (Or.inr (by omega)) (Or.inr (by omega))
  have hMar : bucketCount 19783 19813 [r1, r2] = 0 :=
    bucket_empty (Or.inr (by omega)) (Or.inr (by omega))
  have hApr : bucketCount 19814 19843 [r1, r2] = 0 :=
    bucket_empty (Or.inr (by omega)) (Or.inr (by omega))
  have hMay : bucketCount 19844 19874 [r1, r2] = 0 :=
    bucket_empty (Or.inr (by omega)) (Or.inr (by omega))
  have hJul : bucketCount 19905 19935 [r1, r2] = 0 :=
    bucket_empty (Or.inl (by omega)) (Or.inl (by omega))
  have hAug : bucketCount 19936 19966 [r1, r2] = 0 :=
    bucket_empty (Or.inl (by omega)) (Or.inl (by omega))
  have hSep : bucketCount 19967 19996 [r1, r2] = 0 :=
    bucket_empty (Or.inl (by omega)) (Or.inl (by omega))
  have hOct : bucketCount 19997 20027 [r1, r2] = 0 :=
    bucket_empty (Or.inl (by omega)) (Or.inl (by omega))
  have hNov : bucketCount 20028 20057 [r1, r2] = 0 :=
    bucket_empty (Or.inl (by omega)) (Or.inl (by omega))
  have hDec : bucketCount 20058 20088 [r1, r2] = 0 :=
    bucket_empty (Or.inl (by omega)) (Or.inl (by omega))
  rw [heatmap2024_eq, hrel]
  simp only [months2024, heatmapFromBuckets, hJan, hFeb, hMar, hApr, hMay,
    hjun, hJul, hAug, hSep, hOct, hNov, hDec]
  constructor
  · simp [List.foldl]
  · rcases Nat.eq_zero_or_pos (countConflictsInPeriod [r1, r2]) with hc | hc
    · simp [jsReduce, List.foldl, hc]
    · refine iff_of_false ?_ (by omega)
      simp only [jsReduce, List.foldl, gt_iff_lt, lt_self_iff_false,
        if_false, hc, if_true, Nat.not_lt_zero]
      intro h
      simp only [Option.some.injEq, MonthData.mk.injEq] at h
      exact absurd h.1 (by decide)

/-- Claim C6 witness: the June-2024 pair instance. -/
theorem C6_witness :
    (mkDate 2024 6 1 ≤ hr1.startDate ∧ hr1.endDate ≤ mkDate 2024 6 30
      ∧ mkDate 2024 6 1 ≤ hr2.startDate ∧ hr2.endDate ≤ mkDate 2024 6 30)
    ∧ (getMonthlyConflictPatterns today2024 [hr1, hr2]).totalConflicts =
        countConflictsInPeriod [hr1, hr2]
    ∧ ((getMonthlyConflictPatterns today2024 [hr1, hr2]).peakMonth =
        (getMonthlyConflictPatterns today2024 [hr1, hr2]).lowMonth ↔
        countConflictsInPeriod [hr1, hr2] = 0) := by
  have h := C6_single_month_heatmap hr1 hr2 (by decide) (by decide)
    (by decide) (by decide) (by decide) (by decide)
  exact ⟨⟨by decide, by decide, by decide, by decide⟩, h.1, h.2⟩

end Lab
